import Mathlib

/-!
Verification of the pick'em scoring engine (`src/app.py`) against its
natural-language specification.  The Python source is shallowly embedded:

* JSON dictionaries become association lists; a JSON object key for a game id
  may be stored either as the integer `n` or as the decimal string `str(n)`,
  which we model with the two-constructor type `JKey` (`int(k)`/`str(k)`
  both recover the underlying numeral, as the source's
  `winners.get(int(game_id)) or winners.get(str(game_id)) or winners.get(game_id)`
  chain assumes).
* Python truthiness of an optional string (`None` and `""` are falsy) is the
  function `truthy`; `a or b` on such values is `pyOrS`.
* `str.replace`, `str.strip`, `str.startswith`, `str.endswith`,
  `"x" in s`, and the two regular expressions used by
  `normalize_team_name` (`\s*\(\d+\)\s*$`, anchored, hence removing at most
  one trailing numeric parenthetical, and the search for `(OH)`/`(FL)`)
  are implemented on `List Char`.
* Machine integers are `Nat`/`Int`; loss totals use `Int` because the Python
  subtraction `games_decided - week_wins` is an `int` subtraction.
-/

namespace PickEm

/-- ASCII whitespace, as stripped by Python `str.strip` (team names in this
    app are ASCII). -/
def isSpaceChar (c : Char) : Bool :=
  c = ' ' || c = '\t' || c = '\n' || c = '\r' || c = '\x0b' || c = '\x0c'

/-- `\d` on the ASCII inputs of this app. -/
def isDigitChar (c : Char) : Bool := '0' ≤ c && c ≤ '9'

/-- Python `str.strip()`. -/
def pyStrip (s : List Char) : List Char :=
  ((s.dropWhile isSpaceChar).reverse.dropWhile isSpaceChar).reverse

/-- Python `str.replace(old, new)`: replace non-overlapping occurrences left
    to right.  Structured with explicit fuel so that it is kernel-reducible;
    fuel `s.length` always suffices because each step consumes at least one
    character of `s`. -/
def replaceAllF (old new : List Char) : Nat → List Char → List Char
  | 0, s => s
  | _ + 1, [] => []
  | fuel + 1, c :: rest =>
    if !old.isEmpty && old.isPrefixOf (c :: rest) then
      new ++ replaceAllF old new fuel ((c :: rest).drop old.length)
    else
      c :: replaceAllF old new fuel rest

/-- Python `s.replace(old, new)`. -/
def replaceAll (old new s : List Char) : List Char :=
  replaceAllF old new s.length s

/-- Python `pat in s` (substring containment). -/
def containsSub (pat : List Char) : List Char → Bool
  | [] => pat.isEmpty
  | c :: rest => pat.isPrefixOf (c :: rest) || containsSub pat rest

/-- `re.sub(r'\s*\(\d+\)\s*$', '', s)`: the pattern is anchored at the end of
    the string, so at most one match is removed — a final run
    `spaces "(" digits ")" spaces` (the digits nonempty).  If the tail of `s`
    does not have this shape, `s` is returned unchanged. -/
def stripTrailingAnnot (s : List Char) : List Char :=
  let r := s.reverse
  let r1 := r.dropWhile isSpaceChar
  match r1 with
  | ')' :: r2 =>
    let ds := r2.takeWhile isDigitChar
    if ds.isEmpty then s
    else
      match r2.dropWhile isDigitChar with
      | '(' :: r4 => (r4.dropWhile isSpaceChar).reverse
      | _ => s
  | _ => s

/-- The fixed abbreviation/misspelling table of `normalize_team_name`,
    in source order (Python dicts iterate in insertion order). -/
def replacementTable : List (String × String) :=
  [("Michigan St.", "Michigan State"), ("Michigan St", "Michigan State"),
   ("Miss. State", "Mississippi State"), ("Miss State", "Mississippi State"),
   ("Mississippi St.", "Mississippi State"), ("Mississippi St", "Mississippi State"),
   ("N. Carolina", "North Carolina"), ("Arizona St.", "Arizona State"),
   ("Colorado St.", "Colorado State"), ("New Mexico St.", "New Mexico State"),
   ("New Mexico St", "New Mexico State"), ("North Dakota St.", "North Dakota State"),
   ("Ohio St.", "Ohio State"), ("Oklahoma St.", "Oklahoma State"),
   ("San Diego St.", "San Diego State"), ("Illionois", "Illinois"),
   ("Georiga", "Georgia"), ("Syracus", "Syracuse"), ("ULCA", "UCLA")]

/-- The replacement loop of `normalize_team_name`: on `name == old` the new
    name is returned at once (`break`); on `name.endswith(old)` or
    `old + ' ' in name` every occurrence is replaced and the loop continues
    with the remaining table entries. -/
def applyRepl : List (String × String) → List Char → List Char
  | [], name => name
  | (old, new) :: rest, name =>
    if name = old.data then new.data
    else if old.data.isSuffixOf name || containsSub (old.data ++ [' ']) name then
      applyRepl rest (replaceAll old.data new.data name)
    else applyRepl rest name

/-- `normalize_team_name` (src/app.py lines 159-185) on the character list:
    1. falsy (empty) input returns `""`;
    2. strip `**` markup and surrounding whitespace;
    3. a name that is `"Miami"`, or starts with `"Miami"` without an
       `(OH)`/`(FL)` qualifier and whose trailing numeric parenthetical
       strips to `"Miami"`, becomes `"Miami (FL)"`;
    4. strip one trailing numeric parenthetical;
    5. run the replacement table; strip again. -/
def normChars (s : List Char) : List Char :=
  if s = [] then []
  else
    let n1 := pyStrip (replaceAll "**".data [] s)
    let isMiamiBare :=
      n1 = "Miami".data ∨
        ("Miami".data.isPrefixOf n1 &&
          !(containsSub "(OH)".data n1 || containsSub "(FL)".data n1)) = true
    let n2 :=
      if isMiamiBare ∧ stripTrailingAnnot n1 = "Miami".data then "Miami (FL)".data
      else n1
    let n3 := stripTrailingAnnot n2
    pyStrip (applyRepl replacementTable n3)

/-- `normalize_team_name` on `String`. -/
def normalize_team_name (s : String) : String := ⟨normChars s.data⟩

/-- `normalize_team_name` as called on a value that may be `None`
    (`if not name: return ""` covers both `None` and `""`). -/
def normalize_team_name_opt : Option String → String
  | none => ""
  | some s => normalize_team_name s

/-! ## The JSON data model -/

/-- A game-id key of a JSON dictionary: the source stores game ids either as
    the integer `n` (in-memory dicts built by the forms) or as the string
    `str(n)` (after a JSON round trip).  `int(k)` and `str(k)` in the source
    convert between the two representations of the same id. -/
inductive JKey where
  | inat : Nat → JKey
  | istr : Nat → JKey
deriving DecidableEq, Repr

/-- The underlying game id of a key (`int(game_id)` in the source). -/
def keyNat : JKey → Nat
  | .inat n => n
  | .istr n => n

/-- Dictionary lookup `m.get(k)` on an association list. -/
def dlookup (m : List (JKey × String)) (k : JKey) : Option String :=
  (m.find? (fun kv => kv.1 == k)).map (fun kv => kv.2)

/-- Dictionary assignment `m[k] = v`: replace the value of an existing key in
    place, else append. -/
def dictSet (m : List (JKey × String)) (k : JKey) (v : String) : List (JKey × String) :=
  match m with
  | [] => [(k, v)]
  | (k2, v2) :: rest => if k2 = k then (k, v) :: rest else (k2, v2) :: dictSet rest k v

/-- Python truthiness of an optional string: `None` and `""` are falsy. -/
def truthy : Option String → Bool
  | none => false
  | some s => !(s == "")

/-- Python `a or b` on optional strings. -/
def pyOrS (a b : Option String) : Option String := if truthy a then a else b

/-- Integer lookup on a `Nat`-keyed association list (the `weeks` and user
    `picks` dictionaries, keyed by `str(week_num)`). -/
def wlookup {α : Type} (m : List (Nat × α)) (k : Nat) : Option α :=
  (m.find? (fun kv => kv.1 == k)).map (fun kv => kv.2)

/-- A week, as read by the scoring engine: `winners` is the (possibly
    partial) game-id → winning-team dictionary, `winners_set` the
    completion flag. -/
structure Week where
  winners : List (JKey × String)
  winners_set : Bool
deriving DecidableEq, Repr

/-- A stored pick submission: `picks` maps game ids to the chosen team,
    `confidence` is the submitted list of `(game-id, weight)` pairs (weights
    are the small nonnegative integers offered by the form). -/
structure PickSubmission where
  picks : List (JKey × String)
  confidence : List (Nat × Nat)
deriving DecidableEq, Repr

/-! ## Result resolver (`calculate_week_results`, src/app.py lines 123-156) -/

/-- The dict comprehension `{str(c[0]): c[1] for c in confidence}`: a later
    entry for the same game id overwrites an earlier one, so the value at a
    key is the weight of the *last* entry carrying it. -/
def confMap : List (Nat × Nat) → Nat → Option Nat
  | [], _ => none
  | (g, w) :: rest, h =>
    match confMap rest h with
    | some w2 => some w2
    | none => if g = h then some w else none

/-- The confidence weight added for a correct pick on game `g`:
    the mapped weight when `str(game_id)` is a key, `0` otherwise. -/
def confWeight (conf : List (Nat × Nat)) (g : Nat) : Nat := (confMap conf g).getD 0

/-- `winners.get(int(game_id)) or winners.get(str(game_id)) or winners.get(game_id)`
    followed by the `if winner:` truthiness test: `some w` exactly when the
    chain produces a non-empty winner string `w`. -/
def winnerFor (winners : List (JKey × String)) (k : JKey) : Option String :=
  let g := keyNat k
  let w := pyOrS (dlookup winners (.inat g)) (pyOrS (dlookup winners (.istr g)) (dlookup winners k))
  if truthy w then w else none

/-- The body of one iteration of the resolver loop: `(correct, confidence)`
    increments contributed by the pick `(k, p)`. -/
def gameScore (winners : List (JKey × String)) (conf : List (Nat × Nat))
    (k : JKey) (p : String) : Nat × Nat :=
  match winnerFor winners k with
  | none => (0, 0)
  | some w =>
    if normalize_team_name w = normalize_team_name p then (1, confWeight conf (keyNat k))
    else (0, 0)

/-- The resolver loop over `picks.items()` (insertion order). -/
def resolveLoop (winners : List (JKey × String)) (conf : List (Nat × Nat)) :
    List (JKey × String) → Nat × Nat
  | [] => (0, 0)
  | (k, p) :: rest =>
    let s := gameScore winners conf k p
    let r := resolveLoop winners conf rest
    (s.1 + r.1, s.2 + r.2)

/-- `calculate_week_results` after the week/submission lookups: `(0, 0)` when
    no winners are recorded and the week is not marked complete, or when the
    user has no stored submission for the week; otherwise the resolver loop. -/
def calcBody (wd : Week) (sub : Option PickSubmission) : Nat × Nat :=
  if wd.winners = [] ∧ wd.winners_set = false then (0, 0)
  else
    match sub with
    | none => (0, 0)
    | some u => resolveLoop wd.winners u.confidence u.picks

/-- `calculate_week_results(season_data, week_num, username, user_data)`:
    `(0, 0)` when the week is absent from the season. -/
def calculate_week_results (weeks : List (Nat × Week)) (week_num : Nat)
    (userPicks : List (Nat × PickSubmission)) : Nat × Nat :=
  match wlookup weeks week_num with
  | none => (0, 0)
  | some wd => calcBody wd (wlookup userPicks week_num)

/-! ## Aggregator (`get_season_standings`, src/app.py lines 277-325) -/

/-- The loss increment of one counted week (src/app.py lines 302-310):
    for a complete week `len(user picks) - wins` (guarded by
    `if week_games > 0`), for a partial week `len(winners) - wins`.
    `Int` because Python `int` subtraction can go below zero. -/
def codeLoss (wd : Week) (sub : PickSubmission) (wins : Nat) : Int :=
  if wd.winners_set = true then
    (if sub.picks.length > 0 then (sub.picks.length : Int) - (wins : Int) else 0)
  else (wd.winners.length : Int) - (wins : Int)

/-- One iteration of the per-user standings loop over weeks 1..16: a week is
    skipped when absent, when it has no winners and is not marked complete,
    or when the user has no submission; otherwise the week's `(wins, conf)`
    and loss increment are accumulated as `(wins, losses, confidence)`. -/
def userWeekStep (weeks : List (Nat × Week)) (userPicks : List (Nat × PickSubmission))
    (acc : Nat × Int × Nat) (w : Nat) : Nat × Int × Nat :=
  match wlookup weeks w with
  | none => acc
  | some wd =>
    if wd.winners = [] ∧ wd.winners_set = false then acc
    else
      match wlookup userPicks w with
      | none => acc
      | some sub =>
        let r := calculate_week_results weeks w userPicks
        (acc.1 + r.1, acc.2.1 + codeLoss wd sub r.1, acc.2.2 + r.2)

/-- The `(total_wins, total_losses, total_confidence)` triple accumulated for
    one user by `get_season_standings` (`for week in range(1, 17)`). -/
def userSeasonTotals (weeks : List (Nat × Week))
    (userPicks : List (Nat × PickSubmission)) : Nat × Int × Nat :=
  (List.range' 1 16).foldl (userWeekStep weeks userPicks) (0, 0, 0)

/-- A stored user record, restricted to the fields the standings read. -/
structure UserInfo where
  display_name : String
  approved : Bool
  active : Bool
  seasons : List String
  picks : List (Nat × PickSubmission)

/-- `get_season_standings` rows before the final sort: one row per user that
    is approved, active and enrolled in the season. -/
def get_season_standings (users : List (String × UserInfo))
    (weeks : List (Nat × Week)) (season_name : String) :
    List (String × Nat × Int × Nat) :=
  users.filterMap (fun ui =>
    if ui.2.approved = true ∧ ui.2.active = true ∧ season_name ∈ ui.2.seasons then
      some (ui.2.display_name, userSeasonTotals weeks ui.2.picks)
    else none)

/-- Modelled from the spec: the number of games of a week that have a
    declared winner — the distinct game ids carrying a non-empty winner
    entry.  Used to compare the spec's partial-week loss rule with the
    source's `len(week_data.get('winners', {}))`. -/
def declaredWinnerCount (wd : Week) : Nat :=
  (((wd.winners.filter (fun kv => !(kv.2 == ""))).map (fun kv => keyNat kv.1)).dedup).length

/-- Modelled from the spec: per-week loss contribution as §4.5 words it —
    complete week: picked − correct; partial week: decided-so-far − correct. -/
def specLoss (wd : Week) (sub : PickSubmission) (wins : Nat) : Int :=
  if wd.winners_set = true then (sub.picks.length : Int) - (wins : Int)
  else (declaredWinnerCount wd : Int) - (wins : Int)

/-- Modelled from the spec: the standings step with the spec's loss rule. -/
def specWeekStep (weeks : List (Nat × Week)) (userPicks : List (Nat × PickSubmission))
    (acc : Nat × Int × Nat) (w : Nat) : Nat × Int × Nat :=
  match wlookup weeks w with
  | none => acc
  | some wd =>
    if wd.winners = [] ∧ wd.winners_set = false then acc
    else
      match wlookup userPicks w with
      | none => acc
      | some sub =>
        let r := calculate_week_results weeks w userPicks
        (acc.1 + r.1, acc.2.1 + specLoss wd sub r.1, acc.2.2 + r.2)

/-- Modelled from the spec: season totals with the spec's loss rule. -/
def specSeasonTotals (weeks : List (Nat × Week))
    (userPicks : List (Nat × PickSubmission)) : Nat × Int × Nat :=
  (List.range' 1 16).foldl (specWeekStep weeks userPicks) (0, 0, 0)

/-! ## Pick validation (src/app.py lines 1483-1504 and 788-803) -/

/-- Outcome of the Submit Picks checks, in source order: pick-count error,
    confidence-count error, repeated-weight error, else accepted. -/
inductive SubmitCheck where
  | ok
  | errPickCount
  | errConfCount
  | errConfDistinct
deriving DecidableEq, Repr

/-- The Submit Picks validation: `len(picks) != len(unlocked_games)`,
    `len(confidence_picks) != 3`, `len(set(conf_values)) != 3`, first
    failure wins. -/
def validateSubmit (picks : List (JKey × String)) (unlockedCount : Nat)
    (conf : List (Nat × Nat)) : SubmitCheck :=
  if picks.length ≠ unlockedCount then .errPickCount
  else if conf.length ≠ 3 then .errConfCount
  else if ((conf.map (fun c => c.2)).dedup).length ≠ 3 then .errConfDistinct
  else .ok

/-- The admin Save Picks check (src/app.py line 790):
    `len(confidence_picks) == 3 and len(set(conf_values)) == 3`. -/
def adminSaveValid (conf : List (Nat × Nat)) : Bool :=
  conf.length == 3 && ((conf.map (fun c => c.2)).dedup).length == 3

/-- The per-game state of the Submit Picks form: a game id, whether the game
    is locked, the chosen team (a radio button always carries a choice), and
    the selected confidence weight (`None` or a weight). -/
structure GameChoice where
  id : Nat
  locked : Bool
  pick : String
  conf : Option Nat

/-- The `picks` dictionary the form builds (src/app.py line 1456): one entry
    per unlocked game, keyed by the integer game id. -/
def buildPicks (gs : List GameChoice) : List (JKey × String) :=
  gs.filterMap (fun g => if g.locked then none else some (JKey.inat g.id, g.pick))

/-- The `confidence_picks` list the form builds (src/app.py line 1465): an
    entry per unlocked game whose confidence selector is not `None`. -/
def buildConfidence (gs : List GameChoice) : List (Nat × Nat) :=
  gs.filterMap (fun g => if g.locked then none else g.conf.map (fun w => (g.id, w)))

/-! ## Lock policy (`check_game_locked`, src/app.py lines 94-116)

`datetime.strptime(s, '%Y-%m-%d')` accepts exactly four year digits and one
or two month/day digits, validates the calendar date, and rejects year 0
(`datetime.MINYEAR` is 1); `map(int, deadline_time.split(':'))` needs
exactly two fields, each accepted by `int()` — which strips surrounding
whitespace and allows one sign and underscore digit grouping — and
`datetime.replace(hour, minute)` raises unless `0 ≤ hour ≤ 23` and
`0 ≤ minute ≤ 59`; `pytz.timezone` raises on an unknown zone id, which we
abstract as a partial zone table `tzdb` giving each known zone its offset in
minutes.  Every raised error is caught by the bare `except` and yields
`False`.  Instants are modelled as minutes on an order-preserving timeline:
`dayCode y m d * 1440 + h * 60 + min - offset`, where
`dayCode y m d = 372 * y + 31 * m + d` orders valid calendar dates
lexicographically. -/

/-- Gregorian leap year. -/
def isLeapYear (y : Nat) : Bool := (y % 4 == 0 && y % 100 != 0) || y % 400 == 0

/-- Days in a month, as validated by `datetime`. -/
def daysInMonth (y m : Nat) : Nat :=
  if m = 2 then (if isLeapYear y then 29 else 28)
  else if m = 4 ∨ m = 6 ∨ m = 9 ∨ m = 11 then 30
  else 31

/-- Python `str.split(sep)` for a one-character separator. -/
def splitOnChar (c : Char) : List Char → List (List Char)
  | [] => [[]]
  | a :: rest =>
    match splitOnChar c rest with
    | [] => if a = c then [[], []] else [[a]]
    | x :: xs => if a = c then [] :: x :: xs else (a :: x) :: xs

/-- Decimal value of a digit string. -/
def digitsVal (l : List Char) : Nat :=
  l.foldl (fun acc c => acc * 10 + (c.toNat - 48)) 0

/-- A strptime numeric field: nonempty, all digits. -/
def parseNatDigits (s : List Char) : Option Nat :=
  if s ≠ [] ∧ s.all isDigitChar then some (digitsVal s) else none

/-- The digit part of a Python `int()` literal after the optional sign:
    groups of digits separated by single underscores (PEP 515) — no
    leading, trailing or doubled underscore. -/
def puDigits : Nat → List Char → Option Nat
  | acc, [] => some acc
  | acc, '_' :: c :: rest =>
    if isDigitChar c then puDigits (acc * 10 + (c.toNat - 48)) rest else none
  | _, '_' :: [] => none
  | acc, c :: rest =>
    if isDigitChar c then puDigits (acc * 10 + (c.toNat - 48)) rest else none

/-- Python `int(s)` on a decimal string: surrounding whitespace is
    stripped, one optional `+`/`-` sign, then a nonempty underscore-grouped
    digit run (so `" 16"`, `"+16"`, `"1_6"` all parse to 16, while
    `"+ 16"`, `"_16"`, `"16_"`, `"1__6"` and `""` raise). -/
def pyInt (s : List Char) : Option Int :=
  match pyStrip s with
  | '+' :: c :: rest =>
    if isDigitChar c then (puDigits (c.toNat - 48) rest).map (fun n => (n : Int))
    else none
  | '-' :: c :: rest =>
    if isDigitChar c then (puDigits (c.toNat - 48) rest).map (fun n => -(n : Int))
    else none
  | c :: rest =>
    if isDigitChar c then (puDigits (c.toNat - 48) rest).map (fun n => (n : Int))
    else none
  | [] => none

/-- `datetime.strptime(s, '%Y-%m-%d')`, returning the `(year, month, day)`
    triple on success: `%Y` takes exactly four digits, `%m`/`%d` one or two,
    the calendar date must exist, and `datetime` itself requires the year to
    be at least `MINYEAR = 1` (year `0000` raises). -/
def parseDateYMD (s : String) : Option (Nat × Nat × Nat) :=
  match splitOnChar '-' s.data with
  | [ys, ms, ds] =>
    match parseNatDigits ys, parseNatDigits ms, parseNatDigits ds with
    | some y, some m, some d =>
      if ys.length = 4 ∧ ms.length ≤ 2 ∧ ds.length ≤ 2 ∧ 1 ≤ y ∧
          1 ≤ m ∧ m ≤ 12 ∧ 1 ≤ d ∧ d ≤ daysInMonth y m then some (y, m, d)
      else none
    | _, _, _ => none
  | _ => none

/-- `hour, minute = map(int, deadline_time.split(':'))` followed by
    `game_date.replace(hour=hour, minute=minute)`: exactly two fields, each
    parseable by `int()` (whitespace, sign and underscore grouping
    tolerated), and `replace` requires `0 ≤ hour ≤ 23` and
    `0 ≤ minute ≤ 59` — any other shape raises and the caller answers
    `False`. -/
def parseDeadline (s : String) : Option (Nat × Nat) :=
  match splitOnChar ':' s.data with
  | [hs, ms] =>
    match pyInt hs, pyInt ms with
    | some h, some mi =>
      if 0 ≤ h ∧ h ≤ 23 ∧ 0 ≤ mi ∧ mi ≤ 59 then some (h.toNat, mi.toNat) else none
    | _, _ => none
  | _ => none

/-- Order-preserving code of a calendar date. -/
def dayCode (y m d : Nat) : Nat := 372 * y + 31 * m + d

/-- The lock instant, in timeline minutes, of `date` at `h:mi` in a zone
    whose offset is `off` minutes. -/
def lockInstant (y m d h mi : Nat) (off : Int) : Int :=
  (dayCode y m d : Int) * 1440 + (h : Int) * 60 + (mi : Int) - off

/-- The lock-policy settings: `deadline_time` (`"HH:MM"`) and the IANA
    `timezone` id (defaults are filled in by the data layer). -/
structure Settings where
  deadline_time : String
  timezone : String

/-- `check_game_locked(game_date_str, settings)` with the current instant
    `now` and the zone table `tzdb` made explicit.  A missing, falsy or
    `'nan'` date never locks; any parse failure is caught by the bare
    `except` and never locks; otherwise locked iff `now` is at or past the
    lock instant.  The function is total: it never raises. -/
def check_game_locked (tzdb : String → Option Int) (now : Int)
    (game_date_str : Option String) (s : Settings) : Bool :=
  match game_date_str with
  | none => false
  | some ds =>
    if ds = "" ∨ ds = "nan" then false
    else
      match parseDateYMD ds with
      | none => false
      | some (y, m, d) =>
        match parseDeadline s.deadline_time with
        | none => false
        | some (h, mi) =>
          match tzdb s.timezone with
          | none => false
          | some off => decide (now ≥ lockInstant y m d h mi off)

/-! ## Scenario A data (spec §8): week 1, 20 games, winners fully set.

The winners dictionary is int-keyed (as built by the Mark Winners form); the
user's picks are string-keyed (as a submission looks after a JSON round
trip), exercising the resolver's cross-representation lookup.  The user is
correct on games 1-14 and wrong on 15-20; confidence weight 3 sits on game 5
(correct), weight 2 on game 16 (incorrect), weight 1 on game 2 (correct). -/

def scenarioWinners : List (JKey × String) :=
  [(JKey.inat 1, "T1"), (JKey.inat 2, "T2"), (JKey.inat 3, "T3"), (JKey.inat 4, "T4"),
   (JKey.inat 5, "T5"), (JKey.inat 6, "T6"), (JKey.inat 7, "T7"), (JKey.inat 8, "T8"),
   (JKey.inat 9, "T9"), (JKey.inat 10, "T10"), (JKey.inat 11, "T11"), (JKey.inat 12, "T12"),
   (JKey.inat 13, "T13"), (JKey.inat 14, "T14"), (JKey.inat 15, "T15"), (JKey.inat 16, "T16"),
   (JKey.inat 17, "T17"), (JKey.inat 18, "T18"), (JKey.inat 19, "T19"), (JKey.inat 20, "T20")]

def scenarioPicks : List (JKey × String) :=
  [(JKey.istr 1, "T1"), (JKey.istr 2, "T2"), (JKey.istr 3, "T3"), (JKey.istr 4, "T4"),
   (JKey.istr 5, "T5"), (JKey.istr 6, "T6"), (JKey.istr 7, "T7"), (JKey.istr 8, "T8"),
   (JKey.istr 9, "T9"), (JKey.istr 10, "T10"), (JKey.istr 11, "T11"), (JKey.istr 12, "T12"),
   (JKey.istr 13, "T13"), (JKey.istr 14, "T14"), (JKey.istr 15, "X"), (JKey.istr 16, "X"),
   (JKey.istr 17, "X"), (JKey.istr 18, "X"), (JKey.istr 19, "X"), (JKey.istr 20, "X")]

def scenarioWeeks : List (Nat × Week) := [(1, ⟨scenarioWinners, true⟩)]

def scenarioUser : List (Nat × PickSubmission) :=
  [(1, ⟨scenarioPicks, [(5, 3), (16, 2), (2, 1)]⟩)]

/-! ## Helper lemmas -/

/-- A pick `(k, p)` is counted as correct: its game has a (truthy) declared
    winner and the canonical forms agree. -/
def correctB (winners : List (JKey × String)) (k : JKey) (p : String) : Bool :=
  match winnerFor winners k with
  | none => false
  | some w => normalize_team_name w == normalize_team_name p

/-- Game `g` is undecided in a winners dictionary: neither key
    representation holds a truthy (non-empty) winner, so the source's
    three-way lookup chain fails the `if winner:` test. -/
def undecidedIn (winners : List (JKey × String)) (g : Nat) : Prop :=
  truthy (dlookup winners (.inat g)) = false ∧ truthy (dlookup winners (.istr g)) = false

instance (winners : List (JKey × String)) (g : Nat) :
    Decidable (undecidedIn winners g) := by
  unfold undecidedIn; infer_instance

theorem gameScore_of_correct (winners : List (JKey × String)) (conf : List (Nat × Nat))
    (k : JKey) (p : String) :
    gameScore winners conf k p =
      if correctB winners k p then (1, confWeight conf (keyNat k)) else (0, 0) := by
  unfold gameScore correctB
  cases winnerFor winners k with
  | none => simp
  | some w =>
    by_cases h : normalize_team_name w = normalize_team_name p <;> simp [h]

/-- Characterization of the resolver loop: `correct` is the number of
    correctly picked games, `confidence` the sum of their confidence
    weights. -/
theorem resolveLoop_char (winners : List (JKey × String)) (conf : List (Nat × Nat))
    (ps : List (JKey × String)) :
    resolveLoop winners conf ps =
      ((ps.filter (fun kp => correctB winners kp.1 kp.2)).length,
       ((ps.filter (fun kp => correctB winners kp.1 kp.2)).map
         (fun kp => confWeight conf (keyNat kp.1))).sum) := by
  induction ps with
  | nil => rfl
  | cons hd tl ih =>
    obtain ⟨k, p⟩ := hd
    by_cases h : correctB winners k p <;>
      simp [resolveLoop, ih, gameScore_of_correct, h, List.filter_cons, Nat.add_comm]

theorem resolveLoop_correct_le (winners : List (JKey × String)) (conf : List (Nat × Nat))
    (ps : List (JKey × String)) :
    (resolveLoop winners conf ps).1 ≤ ps.length := by
  rw [resolveLoop_char]
  simpa using List.length_filter_le _ ps

theorem confMap_append (xs ys : List (Nat × Nat)) (h : Nat) :
    confMap (xs ++ ys) h =
      match confMap ys h with
      | some w => some w
      | none => confMap xs h := by
  induction xs with
  | nil => cases hys : confMap ys h <;> simp [confMap, hys]
  | cons hd tl ih =>
    obtain ⟨g, w⟩ := hd
    simp only [List.cons_append, confMap]
    cases hys : confMap ys h <;> cases htl : confMap tl h <;>
      simp [ih, hys, htl]

theorem confMap_isSome_of_mem (ys : List (Nat × Nat)) (g : Nat)
    (hg : g ∈ ys.map (fun c => c.1)) : (confMap ys g).isSome := by
  induction ys with
  | nil => simp at hg
  | cons hd tl ih =>
    obtain ⟨g2, w2⟩ := hd
    simp only [List.map_cons, List.mem_cons] at hg
    simp only [confMap]
    cases hm : confMap tl g with
    | some w => simp
    | none =>
      rcases hg with hg | hg
      · simp [hg]
      · have := ih hg
        rw [hm] at this
        simp at this

/-- The resolver depends on the confidence list only through the game-id →
    weight mapping it induces. -/
theorem resolveLoop_conf_congr (winners : List (JKey × String))
    (c1 c2 : List (Nat × Nat)) (hc : ∀ g, confMap c1 g = confMap c2 g)
    (ps : List (JKey × String)) :
    resolveLoop winners c1 ps = resolveLoop winners c2 ps := by
  induction ps with
  | nil => rfl
  | cons hd tl ih =>
    obtain ⟨k, p⟩ := hd
    simp only [resolveLoop, ih]
    congr 2 <;>
      simp [gameScore, confWeight, hc (keyNat k)]

theorem dlookup_dictSet_self (m : List (JKey × String)) (k : JKey) (v : String) :
    dlookup (dictSet m k v) k = some v := by
  induction m with
  | nil => simp [dictSet, dlookup, List.find?]
  | cons hd tl ih =>
    obtain ⟨k2, v2⟩ := hd
    by_cases h : k2 = k
    · simp [dictSet, h, dlookup, List.find?]
    · simpa [dictSet, h, dlookup, List.find?] using ih

theorem dlookup_dictSet_ne (m : List (JKey × String)) (k k2 : JKey) (v : String)
    (h : k2 ≠ k) : dlookup (dictSet m k v) k2 = dlookup m k2 := by
  induction m with
  | nil =>
    have hke : (k == k2) = false := by simpa using fun e => h e.symm
    simp [dictSet, dlookup, List.find?, hke]
  | cons hd tl ih =>
    obtain ⟨k3, v3⟩ := hd
    by_cases h3 : k3 = k
    · subst h3
      simp [dictSet, dlookup, List.find?, (by simpa using h : ¬k2 = k3),
        show (k3 == k2) = false by simpa using fun e => h e.symm]
    · by_cases h2 : k3 = k2
      · subst h2
        simp [dictSet, h3, dlookup, List.find?]
      · simpa [dictSet, h3, dlookup, List.find?,
          show (k3 == k2) = false by simpa using h2] using ih

theorem dictSet_ne_nil (m : List (JKey × String)) (k : JKey) (v : String) :
    dictSet m k v ≠ [] := by
  cases m with
  | nil => simp [dictSet]
  | cons hd tl =>
    obtain ⟨k2, v2⟩ := hd
    by_cases h : k2 = k <;> simp [dictSet, h]

theorem winnerFor_dictSet_ne (winners : List (JKey × String)) (k : JKey) (v : String)
    (k2 : JKey) (h : keyNat k2 ≠ keyNat k) :
    winnerFor (dictSet winners k v) k2 = winnerFor winners k2 := by
  have h1 : JKey.inat (keyNat k2) ≠ k := fun e => h (by simpa [keyNat] using congrArg keyNat e)
  have h2 : JKey.istr (keyNat k2) ≠ k := fun e => h (by simpa [keyNat] using congrArg keyNat e)
  have h3 : k2 ≠ k := fun e => h (congrArg keyNat e)
  unfold winnerFor
  simp only [dlookup_dictSet_ne _ _ _ _ h1, dlookup_dictSet_ne _ _ _ _ h2,
    dlookup_dictSet_ne _ _ _ _ h3]

theorem winnerFor_none_of_undecided (winners : List (JKey × String)) (g : Nat)
    (h : undecidedIn winners g) (k2 : JKey) (hk : keyNat k2 = g) :
    winnerFor winners k2 = none := by
  obtain ⟨h1, h2⟩ := h
  cases k2 with
  | inat n =>
    have hn : n = g := hk
    subst hn
    simp [winnerFor, keyNat, pyOrS, h1, h2]
  | istr n =>
    have hn : n = g := hk
    subst hn
    simp [winnerFor, keyNat, pyOrS, h1, h2]

theorem gameScore_dictSet_ne (winners : List (JKey × String)) (conf : List (Nat × Nat))
    (k : JKey) (v : String) (k2 : JKey) (p : String) (h : keyNat k2 ≠ keyNat k) :
    gameScore (dictSet winners k v) conf k2 p = gameScore winners conf k2 p := by
  unfold gameScore
  rw [winnerFor_dictSet_ne _ _ _ _ h]

theorem gameScore_undecided (winners : List (JKey × String)) (conf : List (Nat × Nat))
    (g : Nat) (h : undecidedIn winners g) (k2 : JKey) (p : String) (hk : keyNat k2 = g) :
    gameScore winners conf k2 p = (0, 0) := by
  unfold gameScore
  rw [winnerFor_none_of_undecided _ _ h _ hk]

theorem resolveLoop_mono_dictSet (winners : List (JKey × String)) (conf : List (Nat × Nat))
    (k : JKey) (v : String) (h : undecidedIn winners (keyNat k))
    (ps : List (JKey × String)) :
    (resolveLoop winners conf ps).1 ≤ (resolveLoop (dictSet winners k v) conf ps).1 ∧
    (resolveLoop winners conf ps).2 ≤ (resolveLoop (dictSet winners k v) conf ps).2 := by
  induction ps with
  | nil => exact ⟨le_refl _, le_refl _⟩
  | cons hd tl ih =>
    obtain ⟨k2, p⟩ := hd
    simp only [resolveLoop]
    by_cases hk2 : keyNat k2 = keyNat k
    · rw [gameScore_undecided winners conf _ h k2 p hk2]
      constructor
      · simpa using ih.1.trans (Nat.le_add_left _ _)
      · simpa using ih.2.trans (Nat.le_add_left _ _)
    · rw [gameScore_dictSet_ne winners conf k v k2 p hk2]
      exact ⟨Nat.add_le_add_left ih.1 _, Nat.add_le_add_left ih.2 _⟩

theorem confWeight_three (g1 g2 g3 w1 w2 w3 h : Nat)
    (d12 : g1 ≠ g2) (d13 : g1 ≠ g3) (d23 : g2 ≠ g3) :
    confWeight [(g1, w1), (g2, w2), (g3, w3)] h =
      if g1 = h then w1 else if g2 = h then w2 else if g3 = h then w3 else 0 := by
  by_cases c1 : g1 = h <;> by_cases c2 : g2 = h <;> by_cases c3 : g3 = h <;>
    simp_all [confWeight, confMap]

theorem sum_confWeight_three (g1 g2 g3 w1 w2 w3 : Nat)
    (d12 : g1 ≠ g2) (d13 : g1 ≠ g3) (d23 : g2 ≠ g3) (l : List Nat) (hl : l.Nodup) :
    (l.map (fun g => confWeight [(g1, w1), (g2, w2), (g3, w3)] g)).sum =
      (if g1 ∈ l then w1 else 0) + (if g2 ∈ l then w2 else 0) +
        (if g3 ∈ l then w3 else 0) := by
  induction l with
  | nil => simp
  | cons a t ih =>
    have ha : a ∉ t := (List.nodup_cons.mp hl).1
    have ht : t.Nodup := (List.nodup_cons.mp hl).2
    rw [List.map_cons, List.sum_cons, ih ht,
      confWeight_three _ _ _ _ _ _ _ d12 d13 d23]
    simp only [List.mem_cons]
    by_cases e1 : g1 = a <;> by_cases e2 : g2 = a <;> by_cases e3 : g3 = a <;>
      simp_all <;> omega

theorem subset_sum_three (c1 c2 c3 : Prop) [Decidable c1] [Decidable c2] [Decidable c3]
    (w1 w2 w3 : Nat)
    (h1 : w1 = 1 ∨ w1 = 2 ∨ w1 = 3) (h2 : w2 = 1 ∨ w2 = 2 ∨ w2 = 3)
    (h3 : w3 = 1 ∨ w3 = 2 ∨ w3 = 3)
    (d12 : w1 ≠ w2) (d13 : w1 ≠ w3) (d23 : w2 ≠ w3) :
    ∃ b1 b2 b3 : Bool,
      (if c1 then w1 else 0) + (if c2 then w2 else 0) + (if c3 then w3 else 0) =
        (cond b1 1 0) + (cond b2 2 0) + (cond b3 3 0) := by
  refine ⟨decide ((c1 ∧ w1 = 1) ∨ (c2 ∧ w2 = 1) ∨ (c3 ∧ w3 = 1)),
          decide ((c1 ∧ w1 = 2) ∨ (c2 ∧ w2 = 2) ∨ (c3 ∧ w3 = 2)),
          decide ((c1 ∧ w1 = 3) ∨ (c2 ∧ w2 = 3) ∨ (c3 ∧ w3 = 3)), ?_⟩
  rcases h1 with rfl | rfl | rfl <;> rcases h2 with rfl | rfl | rfl <;>
    rcases h3 with rfl | rfl | rfl <;>
    first
      | exact absurd rfl d12
      | exact absurd rfl d13
      | exact absurd rfl d23
      | (by_cases k1 : c1 <;> by_cases k2 : c2 <;> by_cases k3 : c3 <;>
          simp [k1, k2, k3])

theorem filtered_keyNat_nodup (ps : List (JKey × String)) (q : JKey × String → Bool)
    (h : (ps.map (fun kp => keyNat kp.1)).Nodup) :
    ((ps.filter q).map (fun kp => keyNat kp.1)).Nodup :=
  ((List.filter_sublist ps).map _).nodup h

/-- For a winners dictionary whose entries all carry a non-empty winner and
    whose keys name pairwise distinct games, the dictionary size used by the
    standings (`len(winners)`) is exactly the number of games with a
    declared winner. -/
theorem declaredWinnerCount_eq (wd : Week)
    (hv : ∀ kv ∈ wd.winners, kv.2 ≠ "")
    (hn : (wd.winners.map (fun kv => keyNat kv.1)).Nodup) :
    declaredWinnerCount wd = wd.winners.length := by
  unfold declaredWinnerCount
  have hf : wd.winners.filter (fun kv => !(kv.2 == "")) = wd.winners :=
    List.filter_eq_self.mpr (fun kv hkv => by simpa using hv kv hkv)
  rw [hf, List.dedup_eq_self.mpr hn, List.length_map]

theorem calcBody_correct_le (wd : Week) (sub : PickSubmission) :
    (calcBody wd (some sub)).1 ≤ sub.picks.length := by
  unfold calcBody
  by_cases h : wd.winners = [] ∧ wd.winners_set = false
  · simp [h]
  · simpa [h] using resolveLoop_correct_le wd.winners sub.confidence sub.picks

theorem codeLoss_eq_specLoss (wd : Week) (sub : PickSubmission) (wins : Nat)
    (hv : ∀ kv ∈ wd.winners, kv.2 ≠ "")
    (hn : (wd.winners.map (fun kv => keyNat kv.1)).Nodup)
    (hw : wins ≤ sub.picks.length) :
    codeLoss wd sub wins = specLoss wd sub wins := by
  unfold codeLoss specLoss
  by_cases hs : wd.winners_set = true
  · simp only [hs, if_pos rfl]
    by_cases hz : sub.picks.length > 0
    · simp [hz]
    · have h0 : sub.picks.length = 0 := by omega
      have hw0 : wins = 0 := by omega
      simp [hz, h0, hw0]
  · simp [hs, declaredWinnerCount_eq wd hv hn]

theorem foldl_congr_steps {α β : Type} (f g : β → α → β) (l : List α)
    (hfg : ∀ acc a, f acc a = g acc a) (init : β) :
    l.foldl f init = l.foldl g init := by
  induction l generalizing init with
  | nil => rfl
  | cons a t ih => simp only [List.foldl_cons, hfg, ih]

theorem userWeekStep_eq_specWeekStep (weeks : List (Nat × Week))
    (userPicks : List (Nat × PickSubmission))
    (hws : ∀ kv ∈ weeks, (∀ e ∈ kv.2.winners, e.2 ≠ "") ∧
      (kv.2.winners.map (fun e => keyNat e.1)).Nodup)
    (acc : Nat × Int × Nat) (w : Nat) :
    userWeekStep weeks userPicks acc w = specWeekStep weeks userPicks acc w := by
  unfold userWeekStep specWeekStep
  cases hwk : wlookup weeks w with
  | none => rfl
  | some wd =>
    have hmem : ∃ kv ∈ weeks, kv.2 = wd := by
      unfold wlookup at hwk
      cases hf : weeks.find? (fun kv => kv.1 == w) with
      | none => rw [hf] at hwk; simp at hwk
      | some kv =>
        rw [hf] at hwk
        simp at hwk
        exact ⟨kv, List.mem_of_find?_eq_some hf, hwk⟩
    obtain ⟨kv, hkv, hkv2⟩ := hmem
    have hwd := hws kv hkv
    rw [hkv2] at hwd
    by_cases hempty : wd.winners = [] ∧ wd.winners_set = false
    · simp [hempty]
    · simp only [if_neg hempty]
      cases hsub : wlookup userPicks w with
      | none => rfl
      | some sub =>
        have hr : (calculate_week_results weeks w userPicks).1 ≤ sub.picks.length := by
          unfold calculate_week_results
          rw [hwk, hsub]
          exact calcBody_correct_le wd sub
        have hle := codeLoss_eq_specLoss wd sub _ hwd.1 hwd.2 hr
        simp [hle]

theorem validateSubmit_ok_iff (picks : List (JKey × String)) (n : Nat)
    (conf : List (Nat × Nat)) :
    validateSubmit picks n conf = SubmitCheck.ok ↔
      picks.length = n ∧ conf.length = 3 ∧
        ((conf.map (fun c => c.2)).dedup).length = 3 := by
  unfold validateSubmit
  split_ifs <;> simp_all

theorem nodup_of_dedup_length (l : List Nat) (h : l.dedup.length = l.length) :
    l.Nodup :=
  List.dedup_eq_self.mp ((List.dedup_sublist l).eq_of_length h)

theorem mem_of_three_distinct (l : List Nat) (hlen : l.length = 3) (hnd : l.Nodup)
    (hmem : ∀ w ∈ l, w = 1 ∨ w = 2 ∨ w = 3) : 1 ∈ l ∧ 2 ∈ l ∧ 3 ∈ l := by
  rcases l with _ | ⟨a, l2⟩
  · simp at hlen
  rcases l2 with _ | ⟨b, l3⟩
  · simp at hlen
  rcases l3 with _ | ⟨c, l4⟩
  · simp at hlen
  rcases l4 with _ | ⟨d, l5⟩
  · have ha := hmem a (by simp)
    have hb := hmem b (by simp)
    have hc := hmem c (by simp)
    rcases ha with rfl | rfl | rfl <;> rcases hb with rfl | rfl | rfl <;>
      rcases hc with rfl | rfl | rfl <;> simp_all
  · simp at hlen

theorem calcBody_mono_dictSet (wd : Week) (sub : PickSubmission) (k : JKey) (v : String)
    (h : undecidedIn wd.winners (keyNat k)) :
    (calcBody wd (some sub)).1 ≤
      (calcBody ⟨dictSet wd.winners k v, wd.winners_set⟩ (some sub)).1 ∧
    (calcBody wd (some sub)).2 ≤
      (calcBody ⟨dictSet wd.winners k v, wd.winners_set⟩ (some sub)).2 := by
  have hne : dictSet wd.winners k v ≠ [] := dictSet_ne_nil _ _ _
  have hgn : ¬(dictSet wd.winners k v = [] ∧ wd.winners_set = false) :=
    fun hc => hne hc.1
  unfold calcBody
  by_cases hg : wd.winners = [] ∧ wd.winners_set = false
  · simp only [if_pos hg, if_neg hgn]
    exact ⟨Nat.zero_le _, Nat.zero_le _⟩
  · simp only [if_neg hg, if_neg hgn]
    exact resolveLoop_mono_dictSet wd.winners sub.confidence k v h sub.picks

theorem confMap_middle_dup (xs ys : List (Nat × Nat)) (g w : Nat)
    (hg : g ∈ ys.map (fun c => c.1)) (h : Nat) :
    confMap (xs ++ (g, w) :: ys) h = confMap (xs ++ ys) h := by
  have hcons : confMap ((g, w) :: ys) h = confMap ys h := by
    simp only [confMap]
    cases hys : confMap ys h with
    | some w2 => rfl
    | none =>
      by_cases hgh : g = h
      · subst hgh
        have := confMap_isSome_of_mem ys g hg
        rw [hys] at this
        simp at this
      · simp [hgh]
  rw [confMap_append, confMap_append, hcons]

/-! ## Claim theorems -/

/-- C1.  The resolver counts a pick as correct exactly when the game has a
    declared winner whose canonical form equals the canonical form of the
    pick (`correctB`), and sums the confidence weights of exactly the
    correct picks; concretely, in the fully-set 20-game Scenario A week with
    14 correct picks and weights 3 and 1 on correct picks and 2 on an
    incorrect one, `calculate_week_results` returns `(14, 4)`. -/
theorem c1_resolver_scenarioA :
    (∀ (winners : List (JKey × String)) (conf : List (Nat × Nat))
        (ps : List (JKey × String)),
      resolveLoop winners conf ps =
        ((ps.filter (fun kp => correctB winners kp.1 kp.2)).length,
         ((ps.filter (fun kp => correctB winners kp.1 kp.2)).map
           (fun kp => confWeight conf (keyNat kp.1))).sum)) ∧
    calculate_week_results scenarioWeeks 1 scenarioUser = (14, 4) :=
  ⟨resolveLoop_char, by decide⟩

/-- C2 counterexample.  The submit-time validation accepts a confidence list
    of three pairwise-distinct weights `{1, 2, 4}` even though `4` is not in
    `{1, 2, 3}` (the admin-edit check accepts it too), so the claim that any
    list of 3 distinct weights containing a value outside `{1, 2, 3}` is
    rejected fails on the code. -/
theorem c2_cex_offrange_weight_accepted :
    validateSubmit [(JKey.inat 1, "A"), (JKey.inat 2, "B"), (JKey.inat 3, "C")] 3
        [(1, 1), (2, 2), (3, 4)] = SubmitCheck.ok ∧
      adminSaveValid [(1, 1), (2, 2), (3, 4)] = true ∧
      (4 : Nat) ∈ ([(1, 1), (2, 2), (3, 4)] : List (Nat × Nat)).map (fun c => c.2) ∧
      (4 : Nat) ∉ ([1, 2, 3] : List Nat) := by
  refine ⟨by decide, by decide, by decide, by decide⟩

/-- C2 (amended).  The validation rejects every submission whose confidence
    list does not consist of exactly 3 entries with pairwise distinct
    weights — in particular the weight lists `{1,1,2}`, `{1,2}` and
    `{1,2,3,1}` are all rejected, by both the submit-time check and the
    admin-edit check — and when all submitted weights are drawn from
    `{1, 2, 3}` (the only values the pick form offers), acceptance forces
    the weight multiset to be exactly `{1, 2, 3}`. -/
theorem c2_validator_weight_multiset :
    (∀ (picks : List (JKey × String)) (n : Nat) (conf : List (Nat × Nat)),
        validateSubmit picks n conf = SubmitCheck.ok →
        conf.length = 3 ∧ (conf.map (fun c => c.2)).Nodup) ∧
    (∀ (picks : List (JKey × String)) (n : Nat) (conf : List (Nat × Nat)),
        validateSubmit picks n conf = SubmitCheck.ok →
        (∀ w ∈ conf.map (fun c => c.2), w = 1 ∨ w = 2 ∨ w = 3) →
        1 ∈ conf.map (fun c => c.2) ∧ 2 ∈ conf.map (fun c => c.2) ∧
          3 ∈ conf.map (fun c => c.2)) ∧
    (∀ (picks : List (JKey × String)) (n : Nat),
        validateSubmit picks n [(1, 1), (2, 1), (3, 2)] ≠ SubmitCheck.ok) ∧
    (∀ (picks : List (JKey × String)) (n : Nat),
        validateSubmit picks n [(1, 1), (2, 2)] ≠ SubmitCheck.ok) ∧
    (∀ (picks : List (JKey × String)) (n : Nat),
        validateSubmit picks n [(1, 1), (2, 2), (3, 3), (4, 1)] ≠ SubmitCheck.ok) ∧
    adminSaveValid [(1, 1), (2, 1), (3, 2)] = false ∧
    adminSaveValid [(1, 1), (2, 2)] = false ∧
    adminSaveValid [(1, 1), (2, 2), (3, 3), (4, 1)] = false := by
  refine ⟨?_, ?_, ?_, ?_, ?_, by decide, by decide, by decide⟩
  · intro picks n conf hok
    obtain ⟨-, hlen, hded⟩ := (validateSubmit_ok_iff picks n conf).mp hok
    refine ⟨hlen, nodup_of_dedup_length _ ?_⟩
    rw [hded, List.length_map, hlen]
  · intro picks n conf hok hmem
    obtain ⟨-, hlen, hded⟩ := (validateSubmit_ok_iff picks n conf).mp hok
    have hnd : (conf.map (fun c => c.2)).Nodup := by
      refine nodup_of_dedup_length _ ?_
      rw [hded, List.length_map, hlen]
    exact mem_of_three_distinct _ (by rw [List.length_map, hlen]) hnd hmem
  · intro picks n
    by_cases hp : picks.length = n <;> simp [validateSubmit, hp]
  · intro picks n
    by_cases hp : picks.length = n <;> simp [validateSubmit, hp]
  · intro picks n
    by_cases hp : picks.length = n <;> simp [validateSubmit, hp]

/-- C2 witness. -/
theorem c2_validator_weight_multiset_witness :
    ([(1, 1), (2, 2), (3, 3)] : List (Nat × Nat)).length = 3 ∧
      (([(1, 1), (2, 2), (3, 3)] : List (Nat × Nat)).map (fun c => c.2)).Nodup :=
  c2_validator_weight_multiset.1 [(JKey.inat 1, "A"), (JKey.inat 2, "B"), (JKey.inat 3, "C")]
    3 [(1, 1), (2, 2), (3, 3)] (by decide)

/-- C3 counterexample.  The submit-time validation (and the admin-edit
    check) accepts a submission whose confidence list references game id 5
    although the picks dictionary has no entry for game 5: no rule-4 check
    exists in the code. -/
theorem c3_cex_conf_ids_not_checked :
    validateSubmit [(JKey.inat 1, "A")] 1 [(5, 1), (6, 2), (7, 3)] = SubmitCheck.ok ∧
      adminSaveValid [(5, 1), (6, 2), (7, 3)] = true ∧
      (5 : Nat) ∉ ([(JKey.inat 1, "A")] : List (JKey × String)).map
        (fun kv => keyNat kv.1) := by
  refine ⟨by decide, by decide, by decide⟩

/-- C3 (amended).  The explicit validation never compares confidence game
    ids with the picks dictionary; instead, the Submit Picks form only
    attaches a confidence weight to a game for which it simultaneously
    records a pick, so every submission the form constructs satisfies:
    every game id in `confidence` is a key of `picks`. -/
theorem c3_form_conf_subset_picks :
    ∀ (gs : List GameChoice) (g w : Nat), (g, w) ∈ buildConfidence gs →
      g ∈ (buildPicks gs).map (fun kv => keyNat kv.1) := by
  intro gs g w hmem
  simp only [buildConfidence, List.mem_filterMap] at hmem
  obtain ⟨gc, hgc, hf⟩ := hmem
  by_cases hl : gc.locked
  · rw [if_pos hl] at hf; cases hf
  · rw [if_neg hl] at hf
    cases hconf : gc.conf with
    | none => rw [hconf] at hf; cases hf
    | some w2 =>
      rw [hconf] at hf
      have hid : gc.id = g := congrArg Prod.fst (Option.some.inj hf)
      simp only [buildPicks, List.mem_map, List.mem_filterMap]
      exact ⟨(JKey.inat gc.id, gc.pick), ⟨gc, hgc, by rw [if_neg hl]⟩,
        by simp [keyNat, hid]⟩

/-- C3 witness. -/
theorem c3_form_conf_subset_picks_witness :
    (1 : Nat) ∈ (buildPicks [⟨1, false, "A", some 2⟩]).map (fun kv => keyNat kv.1) :=
  c3_form_conf_subset_picks [⟨1, false, "A", some 2⟩] 1 2 (by decide)

/-- C4.  Declaring a winner for a game `g` that is currently undecided (no
    truthy winner under either key representation) never decreases a
    submission's correct count or confidence points, and leaves the
    per-game contribution of every other game unchanged. -/
theorem c4_resolver_monotone (wd : Week) (sub : PickSubmission) (k : JKey) (v : String)
    (h : undecidedIn wd.winners (keyNat k)) :
    (calcBody wd (some sub)).1 ≤
      (calcBody ⟨dictSet wd.winners k v, wd.winners_set⟩ (some sub)).1 ∧
    (calcBody wd (some sub)).2 ≤
      (calcBody ⟨dictSet wd.winners k v, wd.winners_set⟩ (some sub)).2 ∧
    ∀ (k2 : JKey) (p : String), keyNat k2 ≠ keyNat k →
      gameScore (dictSet wd.winners k v) sub.confidence k2 p =
        gameScore wd.winners sub.confidence k2 p :=
  ⟨(calcBody_mono_dictSet wd sub k v h).1, (calcBody_mono_dictSet wd sub k v h).2,
    fun k2 p h2 => gameScore_dictSet_ne wd.winners sub.confidence k v k2 p h2⟩

/-- C4 witness. -/
theorem c4_resolver_monotone_witness :
    (calcBody ⟨[], false⟩ (some ⟨[(JKey.istr 1, "A")], []⟩)).1 ≤
      (calcBody ⟨dictSet [] (JKey.inat 1) "A", false⟩
        (some ⟨[(JKey.istr 1, "A")], []⟩)).1 :=
  (c4_resolver_monotone ⟨[], false⟩ ⟨[(JKey.istr 1, "A")], []⟩ (JKey.inat 1) "A"
    (by decide)).1

/-- C5.  For weeks whose winners dictionaries are well-formed (every entry a
    non-empty winner, one entry per game), the standings' per-user totals
    equal the spec-side totals: a complete week contributes
    `picked − correct` losses, a partial week `decided-so-far − correct`
    losses, with undecided games in neither; consequently every eligible
    user's standings row carries the spec-side totals. -/
theorem c5_standings_losses (weeks : List (Nat × Week))
    (hws : ∀ kv ∈ weeks, (∀ e ∈ kv.2.winners, e.2 ≠ "") ∧
      (kv.2.winners.map (fun e => keyNat e.1)).Nodup) :
    (∀ userPicks : List (Nat × PickSubmission),
      userSeasonTotals weeks userPicks = specSeasonTotals weeks userPicks) ∧
    ∀ (users : List (String × UserInfo)) (sn : String),
      get_season_standings users weeks sn = users.filterMap (fun ui =>
        if ui.2.approved = true ∧ ui.2.active = true ∧ sn ∈ ui.2.seasons then
          some (ui.2.display_name, specSeasonTotals weeks ui.2.picks)
        else none) := by
  have htot : ∀ userPicks : List (Nat × PickSubmission),
      userSeasonTotals weeks userPicks = specSeasonTotals weeks userPicks := by
    intro userPicks
    unfold userSeasonTotals specSeasonTotals
    exact foldl_congr_steps _ _ _ (userWeekStep_eq_specWeekStep weeks userPicks hws) _
  refine ⟨htot, ?_⟩
  intro users sn
  unfold get_season_standings
  apply List.filterMap_congr
  intro ui _
  rw [htot ui.2.picks]

/-- C5 witness. -/
theorem c5_standings_losses_witness :
    userSeasonTotals [(1, ⟨[(JKey.inat 1, "W")], false⟩)]
        [(1, ⟨[(JKey.istr 1, "W")], [(1, 3)]⟩)] =
      specSeasonTotals [(1, ⟨[(JKey.inat 1, "W")], false⟩)]
        [(1, ⟨[(JKey.istr 1, "W")], [(1, 3)]⟩)] :=
  (c5_standings_losses [(1, ⟨[(JKey.inat 1, "W")], false⟩)] (by decide)).1
    [(1, ⟨[(JKey.istr 1, "W")], [(1, 3)]⟩)]

/-- C6 counterexample.  For a confidence list that violates the validity
    invariant (a single weight of 99), the resolver's confidence points can
    leave `{0, …, 6}`: with game 1 decided and picked correctly it returns
    99 — so the range claim holds only for valid submissions. -/
theorem c6_cex_offrange_weight :
    (calcBody ⟨[(JKey.inat 1, "A")], true⟩
        (some ⟨[(JKey.inat 1, "A")], [(1, 99)]⟩)).2 = 99 ∧
      (99 : Nat) ∉ ([0, 1, 2, 3, 4, 5, 6] : List Nat) := by
  refine ⟨by decide, by decide⟩

/-- C6 (amended).  For any week and any submission whose picks dictionary
    has one entry per game and whose confidence list is valid — three
    entries on pairwise distinct games with pairwise distinct weights drawn
    from `{1, 2, 3}` — the resolver's confidence points are a subset-sum of
    `{1, 2, 3}` and therefore lie in `{0, 1, 2, 3, 4, 5, 6}`. -/
theorem c6_confidence_subset_sum (wd : Week) (picks : List (JKey × String))
    (g1 g2 g3 w1 w2 w3 : Nat)
    (hnd : (picks.map (fun kp => keyNat kp.1)).Nodup)
    (hg12 : g1 ≠ g2) (hg13 : g1 ≠ g3) (hg23 : g2 ≠ g3)
    (hw1 : w1 = 1 ∨ w1 = 2 ∨ w1 = 3) (hw2 : w2 = 1 ∨ w2 = 2 ∨ w2 = 3)
    (hw3 : w3 = 1 ∨ w3 = 2 ∨ w3 = 3)
    (hd12 : w1 ≠ w2) (hd13 : w1 ≠ w3) (hd23 : w2 ≠ w3) :
    ∃ b1 b2 b3 : Bool,
      (calcBody wd (some ⟨picks, [(g1, w1), (g2, w2), (g3, w3)]⟩)).2 =
        (cond b1 1 0) + (cond b2 2 0) + (cond b3 3 0) ∧
      (calcBody wd (some ⟨picks, [(g1, w1), (g2, w2), (g3, w3)]⟩)).2 ≤ 6 := by
  by_cases hg : wd.winners = [] ∧ wd.winners_set = false
  · exact ⟨false, false, false, by simp [calcBody, hg], by simp [calcBody, hg]⟩
  · have hpts :
        (calcBody wd (some ⟨picks, [(g1, w1), (g2, w2), (g3, w3)]⟩)).2 =
          (if g1 ∈ (picks.filter (fun kp => correctB wd.winners kp.1 kp.2)).map
              (fun kp => keyNat kp.1) then w1 else 0) +
          (if g2 ∈ (picks.filter (fun kp => correctB wd.winners kp.1 kp.2)).map
              (fun kp => keyNat kp.1) then w2 else 0) +
          (if g3 ∈ (picks.filter (fun kp => correctB wd.winners kp.1 kp.2)).map
              (fun kp => keyNat kp.1) then w3 else 0) := by
      unfold calcBody
      rw [if_neg hg]
      show (resolveLoop wd.winners [(g1, w1), (g2, w2), (g3, w3)] picks).2 = _
      rw [resolveLoop_char]
      have hsum := sum_confWeight_three g1 g2 g3 w1 w2 w3 hg12 hg13 hg23
        ((picks.filter (fun kp => correctB wd.winners kp.1 kp.2)).map
          (fun kp => keyNat kp.1))
        (filtered_keyNat_nodup picks _ hnd)
      rw [List.map_map] at hsum
      exact hsum
    obtain ⟨b1, b2, b3, heq⟩ :=
      subset_sum_three
        (g1 ∈ (picks.filter (fun kp => correctB wd.winners kp.1 kp.2)).map
          (fun kp => keyNat kp.1))
        (g2 ∈ (picks.filter (fun kp => correctB wd.winners kp.1 kp.2)).map
          (fun kp => keyNat kp.1))
        (g3 ∈ (picks.filter (fun kp => correctB wd.winners kp.1 kp.2)).map
          (fun kp => keyNat kp.1))
        w1 w2 w3 hw1 hw2 hw3 hd12 hd13 hd23
    refine ⟨b1, b2, b3, by rw [hpts, heq], ?_⟩
    rw [hpts, heq]
    cases b1 <;> cases b2 <;> cases b3 <;> simp

/-- C6 witness. -/
theorem c6_confidence_subset_sum_witness :
    ∃ b1 b2 b3 : Bool,
      (calcBody ⟨[(JKey.inat 1, "A")], true⟩
          (some ⟨[(JKey.istr 1, "A")], [(1, 1), (2, 2), (3, 3)]⟩)).2 =
        (cond b1 1 0) + (cond b2 2 0) + (cond b3 3 0) ∧
      (calcBody ⟨[(JKey.inat 1, "A")], true⟩
          (some ⟨[(JKey.istr 1, "A")], [(1, 1), (2, 2), (3, 3)]⟩)).2 ≤ 6 :=
  c6_confidence_subset_sum ⟨[(JKey.inat 1, "A")], true⟩ [(JKey.istr 1, "A")]
    1 2 3 1 2 3 (by decide) (by decide) (by decide) (by decide)
    (Or.inl rfl) (Or.inr (Or.inl rfl)) (Or.inr (Or.inr rfl))
    (by decide) (by decide) (by decide)

/-- C7 (code bug).  Canonicalization is not idempotent: the trailing-rank
    regex is anchored and removes only the last numeric parenthetical per
    call, so `"Duke (3) (4)"` canonicalizes to `"Duke (3)"`, which
    canonicalizes further to `"Duke"`. -/
theorem c7_canonicalize_not_idempotent :
    normalize_team_name "Duke (3) (4)" = "Duke (3)" ∧
      normalize_team_name "Duke (3)" = "Duke" ∧
      normalize_team_name (normalize_team_name "Duke (3) (4)") ≠
        normalize_team_name "Duke (3) (4)" := by
  refine ⟨by decide, by decide, by decide⟩

/-- C8.  The lock check is total (it cannot raise) and fails open: it
    answers `true` exactly when the date string is present and parses, the
    deadline time parses into a representable time of day, the timezone is
    known, and the current instant is at or past the lock instant; in every
    other situation — absent, falsy or `'nan'` date, unparseable date, bad
    deadline format, unknown timezone — it answers `false`. -/
theorem c8_lock_fail_open :
    ∀ (tzdb : String → Option Int) (now : Int) (g : Option String) (s : Settings),
      check_game_locked tzdb now g s = true ↔
        ∃ ds y m d h mi off, g = some ds ∧ parseDateYMD ds = some (y, m, d) ∧
          parseDeadline s.deadline_time = some (h, mi) ∧ tzdb s.timezone = some off ∧
          now ≥ lockInstant y m d h mi off := by
  intro tzdb now g s
  constructor
  · intro hl
    cases g with
    | none => simp [check_game_locked] at hl
    | some ds =>
      simp only [check_game_locked] at hl
      by_cases hds : ds = "" ∨ ds = "nan"
      · rw [if_pos hds] at hl; cases hl
      · rw [if_neg hds] at hl
        cases hd : parseDateYMD ds with
        | none => simp [hd] at hl
        | some ymd =>
          obtain ⟨y, m, d⟩ := ymd
          simp only [hd] at hl
          cases hdl : parseDeadline s.deadline_time with
          | none => simp [hdl] at hl
          | some hm =>
            obtain ⟨h, mi⟩ := hm
            simp only [hdl] at hl
            cases htz : tzdb s.timezone with
            | none => simp [htz] at hl
            | some off =>
              simp only [htz, decide_eq_true_eq] at hl
              exact ⟨ds, y, m, d, h, mi, off, rfl, hd, rfl, rfl, hl⟩
  · rintro ⟨ds, y, m, d, h, mi, off, rfl, hd, hdl, htz, hge⟩
    have hds : ¬(ds = "" ∨ ds = "nan") := by
      rintro (rfl | rfl)
      · rw [show parseDateYMD "" = none from by decide] at hd; cases hd
      · rw [show parseDateYMD "nan" = none from by decide] at hd; cases hd
    simp only [check_game_locked, if_neg hds, hd, hdl, htz, decide_eq_true_eq]
    exact hge

/-- C9.  Canonicalization is total on degenerate input: the empty string
    (and an absent name, both falsy in Python) canonicalizes to the empty
    string without any error. -/
theorem c9_canonicalize_degenerate :
    normalize_team_name "" = "" ∧ normalize_team_name_opt none = "" ∧
      normalize_team_name_opt (some "") = "" := by
  refine ⟨by decide, by decide, by decide⟩

/-- C10.  When a confidence list carries several entries for the same game
    id, the resolver's result is the one obtained after deleting any earlier
    duplicate (the dict comprehension keeps the last entry), and the weight
    used for a game is the weight of its last entry. -/
theorem c10_conf_last_entry_wins (wd : Week) (picks : List (JKey × String))
    (xs ys : List (Nat × Nat)) (g w : Nat) (hg : g ∈ ys.map (fun c => c.1)) :
    calcBody wd (some ⟨picks, xs ++ (g, w) :: ys⟩) =
      calcBody wd (some ⟨picks, xs ++ ys⟩) ∧
    ∀ (conf : List (Nat × Nat)) (w2 : Nat), confWeight (conf ++ [(g, w2)]) g = w2 := by
  constructor
  · unfold calcBody
    by_cases hgd : wd.winners = [] ∧ wd.winners_set = false
    · simp [hgd]
    · rw [if_neg hgd, if_neg hgd]
      exact resolveLoop_conf_congr wd.winners _ _
        (confMap_middle_dup xs ys g w hg) picks
  · intro conf w2
    unfold confWeight
    rw [confMap_append]
    simp [confMap]

/-- C10 witness. -/
theorem c10_conf_last_entry_wins_witness :
    calcBody ⟨[(JKey.inat 1, "A")], true⟩
        (some ⟨[(JKey.inat 1, "A")], [(1, 3)] ++ (1, 2) :: [(1, 1)]⟩) =
      calcBody ⟨[(JKey.inat 1, "A")], true⟩
        (some ⟨[(JKey.inat 1, "A")], [(1, 3)] ++ [(1, 1)]⟩) :=
  (c10_conf_last_entry_wins ⟨[(JKey.inat 1, "A")], true⟩ [(JKey.inat 1, "A")]
    [(1, 3)] [(1, 1)] 1 2 (by decide)).1

end PickEm
